import Mathlib

/-!
# Verification of the schema reconciliation engine of `surrealdb-orm`

This file gives a shallow embedding, in Lean 4, of the schema
reconciliation engine implemented in `src/orm.ts` of the
`FrankFMY/surrealdb-orm` repository: the definition compiler
(`generateFieldSQL`, `generateIndexSQL`, `generateConstraintSQL`,
`generateTriggerSQL`, `generateCreateTableSQL`), the textual normalizer
used for statement comparison, the diff planner (`Table.planDiff`), the
plan applier (`Table.applyDiff` / `SurrealORM.applyDiff`), the
introspection plumbing (`Table.getInfo`, `SurrealORM.introspectTable`)
and the raw-definition parser with its nested-path reconstruction
(`parseFieldType`, the `DEFAULT`/`VALUE`/`READONLY`/`REFERENCE` clause
extraction, `addNested`).

All stateful methods are embedded as pure functions: query results are
passed in explicitly (`Except Unit _` models a promise that either
resolves or rejects), and the effect of `applyDiff` is modelled as the
list of query strings it sends to the database.

Strings are processed over `List Char`.  JavaScript's regular
expressions are modelled by explicit character scanners that implement
the exact patterns appearing in the source (leftmost match, greedy
whitespace with backtracking where the pattern needs it, lazy capture).
JavaScript's `JSON.parse` / `JSON.stringify` (platform builtins, not
repository code) are modelled on the fragment of JSON the engine
actually exchanges: null, booleans, integers, escape-free strings and
flat arrays of such literals; floating point numbers are outside the
embedded fragment.
-/

namespace SurrealOrm

/-! ## String utilities

JavaScript string primitives used by `orm.ts`: `\s` character class,
`String.prototype.trim`, `toLowerCase`/`toUpperCase` (ASCII fragment),
`replace(/\s+/g, " ")`, `replace(needle, repl)` (first occurrence only),
`split`, `join`, `includes`, `startsWith`. -/

/-- JavaScript `\s` (ASCII fragment): space, tab, LF, VT, FF, CR. -/
def isJsWs (c : Char) : Bool :=
  c == ' ' || c == '\t' || c == '\n' || c == '\x0b' || c == '\x0c' || c == '\r'

/-- ASCII lowercasing of one character, as `toLowerCase` does on ASCII. -/
def lowerChar (c : Char) : Char :=
  if 'A' ≤ c && c ≤ 'Z' then Char.ofNat (c.toNat + 32) else c

/-- ASCII uppercasing of one character, as `toUpperCase` does on ASCII. -/
def upperChar (c : Char) : Char :=
  if 'a' ≤ c && c ≤ 'z' then Char.ofNat (c.toNat - 32) else c

def asciiLower (s : String) : String := ⟨s.data.map lowerChar⟩

def asciiUpper (s : String) : String := ⟨s.data.map upperChar⟩

/-- `s.replace(/\s+/g, " ")` on a character list: every maximal run of
whitespace becomes a single space.  The boolean records whether the
previous character was part of a whitespace run. -/
def collapseWsAux : List Char → Bool → List Char
  | [], _ => []
  | c :: rest, inRun =>
    if isJsWs c then
      if inRun then collapseWsAux rest true
      else ' ' :: collapseWsAux rest true
    else c :: collapseWsAux rest false

def collapseWs (s : String) : String := ⟨collapseWsAux s.data false⟩

/-- `String.prototype.trim` (strips `\s` from both ends). -/
def jsTrim (s : String) : String :=
  ⟨((s.data.dropWhile isJsWs).reverse.dropWhile isJsWs).reverse⟩

/-- The normalizer of `Table.planDiff`
(`s.replace(/\s+/g, " ").trim().toLowerCase()`). -/
def normalized (s : String) : String := asciiLower (jsTrim (collapseWs s))

/-- Normalizer equivalence: two statement texts are considered equal
exactly when their normal forms coincide. -/
def normEquiv (a b : String) : Bool := normalized a == normalized b

/-- Character-list prefix test (used by the substring scanners). -/
def prefixOfChars : List Char → List Char → Bool
  | [], _ => true
  | _ :: _, [] => false
  | p :: ps, c :: cs => p == c && prefixOfChars ps cs

/-- `s.replace(pat, repl)` with a *string* pattern: JavaScript replaces
only the first occurrence (an empty pattern matches at the start). -/
def replaceFirstAux (pat repl : List Char) : List Char → List Char
  | [] => if pat.isEmpty then repl else []
  | c :: rest =>
    if prefixOfChars pat (c :: rest) then repl ++ (c :: rest).drop pat.length
    else c :: replaceFirstAux pat repl rest

def replaceFirst (s pat repl : String) : String :=
  ⟨replaceFirstAux pat.data repl.data s.data⟩

/-- `s.includes(pat)` (substring containment). -/
def containsSubstrAux (pat : List Char) : List Char → Bool
  | [] => pat.isEmpty
  | c :: rest => prefixOfChars pat (c :: rest) || containsSubstrAux pat rest

def containsSubstr (s pat : String) : Bool := containsSubstrAux pat.data s.data

/-- `parts.join(sep)`. -/
def joinSep (sep : String) (l : List String) : String :=
  match l with
  | [] => ""
  | x :: rest => rest.foldl (fun acc y => acc ++ sep ++ y) x

/-- `s.split(sep)` with a single-character separator (JavaScript
semantics: an empty string yields `[""]`, adjacent separators yield
empty pieces). -/
def jsSplitCharAux (sep : Char) : List Char → List Char → List String
  | acc, [] => [(⟨acc.reverse⟩ : String)]
  | acc, c :: rest =>
    if c == sep then (⟨acc.reverse⟩ : String) :: jsSplitCharAux sep [] rest
    else jsSplitCharAux sep (c :: acc) rest

def jsSplitChar (sep : Char) (s : String) : List String := jsSplitCharAux sep [] s.data

/-! ## Data model

Mirrors the `FieldConfig` / `TableConfig` interfaces of `src/orm.ts`.
`default` values, constraint arguments and literal lists are dynamic
(`any`) in the source; they are modelled by the JSON fragment `Lit`
(null, booleans, integers, escape-free strings, flat arrays), which is
the fragment the engine serializes with `JSON.stringify`. -/

/-- JSON-serializable literal values (integer numbers only: the engine
never does arithmetic on them, floats are outside the fragment). -/
inductive Lit : Type where
  | str (s : String)
  | num (n : Int)
  | bool (b : Bool)
  | null
  | arr (xs : List Lit)

/-- Decimal rendering of an integer, as JavaScript prints integral
numbers. -/
def intDec (n : Int) : String :=
  if n < 0 then "-" ++ Nat.repr n.natAbs else Nat.repr n.natAbs

/-- `JSON.stringify` escaping of one string character (the characters
that can occur in the embedded fragment). -/
def jsonEscapeChar (c : Char) : List Char :=
  if c == '"' then ['\\', '"']
  else if c == '\\' then ['\\', '\\']
  else if c == '\n' then ['\\', 'n']
  else if c == '\t' then ['\\', 't']
  else if c == '\r' then ['\\', 'r']
  else [c]

def jsonEscape (s : String) : String := ⟨s.data.flatMap jsonEscapeChar⟩

mutual
/-- `JSON.stringify` on the embedded literal fragment. -/
def Lit.json : Lit → String
  | .str s => "\"" ++ jsonEscape s ++ "\""
  | .num n => intDec n
  | .bool b => if b then "true" else "false"
  | .null => "null"
  | .arr xs => "[" ++ joinSep "," (Lit.jsonList xs) ++ "]"

def Lit.jsonList : List Lit → List String
  | [] => []
  | x :: rest => Lit.json x :: Lit.jsonList rest
end

/-- Table or field permissions: the blanket string values `"FULL"` /
`"NONE"`, or a per-operation expression map whose slots are optional
(`undefined` is `Option.none`). -/
inductive Permissions : Type where
  | FULL
  | NONE
  | perOp (sel cre upd del : Option String)

/-- `reference.onDelete`: one of the keyword strings, or `{ then: expr }`. -/
inductive RefDel : Type where
  | plain (s : String)
  | thenExpr (e : String)

/-- A constraint value (`constraints` map entries are `any` in the
source; the compiler distinguishes arrays, booleans and other
serializable values). -/
inductive CVal : Type where
  | arr (xs : List Lit)
  | boolv (b : Bool)
  | lit (l : Lit)

mutual
/-- `FieldConfig` of `src/orm.ts` (all optional members are `Option`s /
default-`false` booleans / possibly-empty lists). -/
inductive FieldConfig : Type where
  | mk (type : String) (required : Bool) (default : Option Lit) (defaultAlways : Bool)
      (valueExpr : Option String) (readonly : Bool)
      (constraints : List (String × CVal)) (references : Option String)
      (refOnDelete : Option RefDel) (comment : Option String)
      (arrayOf : Option ArrayOf) (properties : List (String × FieldConfig))
      (flexible : Bool) (literals : List Lit) (permissions : Option Permissions)

/-- `FieldConfig.arrayOf`: a bare element-type string, `{ record: tb }`,
`{ type, references? }`, or `{ object: { properties } }`. -/
inductive ArrayOf : Type where
  | prim (elem : String)
  | recordOf (tb : String)
  | typed (t : String) (refs : Option String)
  | obj (properties : List (String × FieldConfig))
end

namespace FieldConfig

def type : FieldConfig → String | .mk t .. => t
def required : FieldConfig → Bool | .mk _ r .. => r
def default : FieldConfig → Option Lit | .mk _ _ d .. => d
def defaultAlways : FieldConfig → Bool | .mk _ _ _ a .. => a
def valueExpr : FieldConfig → Option String | .mk _ _ _ _ v .. => v
def readonly : FieldConfig → Bool | .mk _ _ _ _ _ r .. => r
def constraints : FieldConfig → List (String × CVal) | .mk _ _ _ _ _ _ c .. => c
def references : FieldConfig → Option String | .mk _ _ _ _ _ _ _ r .. => r
def refOnDelete : FieldConfig → Option RefDel | .mk _ _ _ _ _ _ _ _ d .. => d
def comment : FieldConfig → Option String | .mk _ _ _ _ _ _ _ _ _ c .. => c
def arrayOf : FieldConfig → Option ArrayOf | .mk _ _ _ _ _ _ _ _ _ _ a .. => a
def properties : FieldConfig → List (String × FieldConfig) | .mk _ _ _ _ _ _ _ _ _ _ _ p .. => p
def flexible : FieldConfig → Bool | .mk _ _ _ _ _ _ _ _ _ _ _ _ f .. => f
def literals : FieldConfig → List Lit | .mk _ _ _ _ _ _ _ _ _ _ _ _ _ l .. => l
def permissions : FieldConfig → Option Permissions | .mk _ _ _ _ _ _ _ _ _ _ _ _ _ _ p => p

end FieldConfig

/-- A field with only its type set (every optional member absent), the
base from which test configurations are built. -/
def fld (ty : String) : FieldConfig :=
  .mk ty false none false none false [] none none none none [] false [] none

def FieldConfig.setRequired : FieldConfig → Bool → FieldConfig
  | .mk t _ d a v r c rf rd cm ao pr f l p, b => .mk t b d a v r c rf rd cm ao pr f l p
def FieldConfig.setDefault : FieldConfig → Option Lit → FieldConfig
  | .mk t q _ a v r c rf rd cm ao pr f l p, d => .mk t q d a v r c rf rd cm ao pr f l p
def FieldConfig.setDefaultAlways : FieldConfig → Bool → FieldConfig
  | .mk t q d _ v r c rf rd cm ao pr f l p, a => .mk t q d a v r c rf rd cm ao pr f l p
def FieldConfig.setValueExpr : FieldConfig → Option String → FieldConfig
  | .mk t q d a _ r c rf rd cm ao pr f l p, v => .mk t q d a v r c rf rd cm ao pr f l p
def FieldConfig.setReadonly : FieldConfig → Bool → FieldConfig
  | .mk t q d a v _ c rf rd cm ao pr f l p, r => .mk t q d a v r c rf rd cm ao pr f l p
def FieldConfig.setConstraints : FieldConfig → List (String × CVal) → FieldConfig
  | .mk t q d a v r _ rf rd cm ao pr f l p, c => .mk t q d a v r c rf rd cm ao pr f l p
def FieldConfig.setReferences : FieldConfig → Option String → FieldConfig
  | .mk t q d a v r c _ rd cm ao pr f l p, rf => .mk t q d a v r c rf rd cm ao pr f l p
def FieldConfig.setRefOnDelete : FieldConfig → Option RefDel → FieldConfig
  | .mk t q d a v r c rf _ cm ao pr f l p, rd => .mk t q d a v r c rf rd cm ao pr f l p
def FieldConfig.setComment : FieldConfig → Option String → FieldConfig
  | .mk t q d a v r c rf rd _ ao pr f l p, cm => .mk t q d a v r c rf rd cm ao pr f l p
def FieldConfig.setArrayOf : FieldConfig → Option ArrayOf → FieldConfig
  | .mk t q d a v r c rf rd cm _ pr f l p, ao => .mk t q d a v r c rf rd cm ao pr f l p
def FieldConfig.setProperties : FieldConfig → List (String × FieldConfig) → FieldConfig
  | .mk t q d a v r c rf rd cm ao _ f l p, pr => .mk t q d a v r c rf rd cm ao pr f l p
def FieldConfig.setLiterals : FieldConfig → List Lit → FieldConfig
  | .mk t q d a v r c rf rd cm ao pr f _ p, l => .mk t q d a v r c rf rd cm ao pr f l p
def FieldConfig.setPermissions : FieldConfig → Option Permissions → FieldConfig
  | .mk t q d a v r c rf rd cm ao pr f l _, p => .mk t q d a v r c rf rd cm ao pr f l p

/-- `TableConfig.indexes[i].search`.  `bm25` ranking parameters are
numbers in the source; the embedded fragment restricts them to
integers. -/
structure SearchConfig : Type where
  analyzer : String
  bm25 : Option (Option Int × Option Int) := none
  highlights : Bool := false

structure IndexConfig : Type where
  name : String
  fields : List String
  unique : Bool := false
  search : Option SearchConfig := none

structure ConstraintConfig : Type where
  name : String
  expression : String

structure TriggerConfig : Type where
  name : String
  event : String
  expression : String

/-- `TableConfig` of `src/orm.ts`.  `fields` is an insertion-ordered
association list (JavaScript object key order). -/
structure TableConfig : Type where
  comment : Option String := none
  schema : Option String := none
  fields : List (String × FieldConfig)
  indexes : List IndexConfig := []
  constraints : List ConstraintConfig := []
  triggers : List TriggerConfig := []
  permissions : Option Permissions := none

/-- Table attributes reported by `Table.getInfo` (`info.table`). -/
structure TableAttrs : Type where
  schema : Option String := none
  permissions : Option Permissions := none
  comment : Option String := none

/-- The introspection result shape consumed by `Table.planDiff`:
raw definition text per field / index / event name, plus optional table
attributes (absent when the `INFO` query failed). -/
structure TableInfo : Type where
  fields : List (String × String) := []
  indexes : List (String × String) := []
  events : List (String × String) := []
  table : Option TableAttrs := none

/-! ## Definition compiler

Faithful port of `Table.generateFieldSQL`, `generateIndexSQL`,
`generateConstraintSQL`, `generateTriggerSQL` and
`generateCreateTableSQL` (src/orm.ts lines 306-707).  A truthiness test
on an optional string in the source (`if (x) ...`) becomes a test that
the option is `some` of a non-empty string. -/

/-- The type list guarding the `TYPE` clause and the required-assertion
in `generateFieldSQL`. -/
def knownFieldType (ty : String) : Bool :=
  ["string", "number", "bool", "datetime", "record", "object", "array"].contains ty

/-- `if (opt) out += pre + opt` for an optional string clause. -/
def optClause (pre : String) : Option String → String
  | some s => if s == "" then "" else pre ++ s
  | none => ""

/-- One constraint entry of the `constraints` loop in
`generateFieldSQL` (lines 610-640): special mappings for
`string::is::email`, `string::len`, `number::min`, `number::max`, then
the generic function-call fallback. -/
def constraintClause (nm : String) (v : CVal) : String :=
  if nm == "string::is::email" then " ASSERT string::is::email($value)"
  else if nm == "string::len" &&
      (match v with | .arr [_, _] => true | _ => false) then
    match v with
    | .arr [mn, mx] =>
      " ASSERT string::len($value) >= " ++ mn.json ++ " AND string::len($value) <= " ++ mx.json
    | _ => ""
  else if nm == "number::min" then " ASSERT $value >= " ++ cvalJson v
  else if nm == "number::max" then " ASSERT $value <= " ++ cvalJson v
  else
    match v with
    | .arr xs => " ASSERT " ++ nm ++ "($value, [" ++ joinSep ", " (Lit.jsonList xs) ++ "])"
    | .boolv _ => " ASSERT " ++ nm ++ "($value)"
    | .lit l => " ASSERT " ++ nm ++ "($value, " ++ l.json ++ ")"
where
  cvalJson : CVal → String
    | .arr xs => Lit.json (.arr xs)
    | .boolv b => Lit.json (.bool b)
    | .lit l => l.json

/-- Does `arrayOf` have a truthy `.record` member (`{ record: tb }`)? -/
def isRecordOfArray : Option ArrayOf → Bool
  | some (.recordOf tb) => tb != ""
  | _ => false

mutual
/-- The `parts` list built by `generateFieldSQL` (comment line, the
field statement, then recursively the nested-property statements).
`generateFieldSQL` itself is these parts joined by newlines; the
source pushes each nested call joined, which flattens to the same
string. -/
def generateFieldSQLParts (tb nm : String) (c : FieldConfig) : List String :=
  match c with
  | .mk ty rq df da vx ro cs rf rd cm ao pr _fl li pe =>
    let commentParts : List String :=
      match cm with
      | some s => if s == "" then [] else ["-- " ++ s]
      | none => []
    let d0 := "DEFINE FIELD IF NOT EXISTS " ++ nm ++ " ON TABLE " ++ tb
    let typeClause : String :=
      if knownFieldType ty then
        if ty == "record" && (match rf with | some r => r != "" | none => false) then
          " TYPE record<" ++ rf.getD "" ++ ">"
        else if ty == "array" && ao.isSome then
          match ao with
          | some (.prim s) => " TYPE array<" ++ s ++ ">"
          | some (.recordOf r) =>
            if r != "" then " TYPE array<record<" ++ r ++ ">>" else " TYPE array"
          | some (.typed t refs) =>
            if t == "record" && (match refs with | some r => r != "" | none => false) then
              " TYPE array<record<" ++ refs.getD "" ++ ">>"
            else " TYPE array"
          | some (.obj _) => " TYPE array<object>"
          | none => " TYPE array"
        else if ty == "object" then
          " TYPE object" ++ (if _fl then " FLEXIBLE" else "")
        else " TYPE " ++ ty
      else ""
    let refClause : String :=
      if (ty == "record" && (match rf with | some r => r != "" | none => false))
          || (ty == "array" && isRecordOfArray ao) then
        match rd with
        | some (.plain s) => if s == "" then "" else " REFERENCE ON DELETE " ++ s
        | some (.thenExpr e) => if e == "" then "" else " REFERENCE ON DELETE THEN " ++ e
        | none => ""
      else ""
    let reqClause : String :=
      if rq && knownFieldType ty then " ASSERT $value != NONE" else ""
    let defClause : String :=
      match df with
      | some v => " DEFAULT" ++ (if da then " ALWAYS" else "") ++ " " ++ v.json
      | none => ""
    let valClause : String := optClause " VALUE " vx
    let roClause : String := if ro then " READONLY" else ""
    let permClause : String :=
      match pe with
      | some .FULL => " PERMISSIONS FULL"
      | some .NONE => " PERMISSIONS NONE"
      | some (.perOp sel cre upd _del) =>
        " PERMISSIONS" ++ optClause " FOR select " sel ++ optClause " FOR create " cre
          ++ optClause " FOR update " upd
      | none => ""
    let consClause : String := cs.foldl (fun acc p => acc ++ constraintClause p.1 p.2) ""
    let litClause : String :=
      if li.isEmpty then ""
      else " ASSERT $value IN [" ++ joinSep ", " (Lit.jsonList li) ++ "]"
    let mainStmt :=
      d0 ++ typeClause ++ refClause ++ reqClause ++ defClause ++ valClause ++ roClause
        ++ permClause ++ consClause ++ litClause ++ ";"
    let objChildren : List String :=
      if ty == "object" then genChildrenParts tb (nm ++ ".") pr else []
    let arrChildren : List String :=
      if ty == "array" then
        match ao with
        | some (.obj ps) => genChildrenParts tb (nm ++ ".*.") ps
        | _ => []
      else []
    commentParts ++ [mainStmt] ++ objChildren ++ arrChildren

def genChildrenParts (tb pre : String) : List (String × FieldConfig) → List String
  | [] => []
  | (k, cfg) :: rest => generateFieldSQLParts tb (pre ++ k) cfg ++ genChildrenParts tb pre rest
end

def generateFieldSQL (tb nm : String) (c : FieldConfig) : String :=
  joinSep "\n" (generateFieldSQLParts tb nm c)

def optIntText : Option Int → String
  | some n => intDec n
  | none => ""

/-- `Table.generateIndexSQL` (lines 670-690). -/
def generateIndexSQL (tb : String) (idx : IndexConfig) : String :=
  match idx.search with
  | some s =>
    let parts : List String :=
      ["DEFINE INDEX IF NOT EXISTS " ++ idx.name ++ " ON TABLE " ++ tb
         ++ " FIELDS " ++ joinSep ", " idx.fields,
       "SEARCH ANALYZER " ++ s.analyzer]
      ++ (match s.bm25 with
          | some (k1, b) =>
            if k1.isSome || b.isSome then
              ["BM25 (" ++ optIntText k1 ++ ", " ++ optIntText b ++ ")"]
            else []
          | none => [])
      ++ (if s.highlights then ["HIGHLIGHTS"] else [])
    joinSep " " parts ++ ";"
  | none =>
    "DEFINE INDEX IF NOT EXISTS " ++ idx.name ++ " ON TABLE " ++ tb
      ++ " FIELDS " ++ joinSep ", " idx.fields
      ++ (if idx.unique then " UNIQUE" else "") ++ ";"

/-- `Table.generateConstraintSQL` (lines 695-700): a constraint compiles
to an event raising an error when the predicate fails on create/update.
The template literal contains a newline plus tab indentation. -/
def generateConstraintSQL (tb : String) (c : ConstraintConfig) : String :=
  "DEFINE EVENT IF NOT EXISTS " ++ c.name ++ " ON TABLE " ++ tb
    ++ " WHEN $event = \"CREATE\" OR $event = \"UPDATE\" THEN (\n\t\t\tIF NOT ("
    ++ c.expression ++ ") THEN THROW \x7b code: 400, message: \"constraint:"
    ++ c.name ++ "\" \x7d END\n\t\t);"

/-- `Table.generateTriggerSQL` (lines 705-707). -/
def generateTriggerSQL (tb : String) (t : TriggerConfig) : String :=
  "DEFINE EVENT IF NOT EXISTS " ++ t.name ++ " ON TABLE " ++ tb
    ++ " WHEN $event = \"" ++ t.event ++ "\" THEN (" ++ t.expression ++ ");"

/-- The table-level `PERMISSIONS` clause of `generateCreateTableSQL`
(all four operation slots). -/
def tablePermsClause : Option Permissions → String
  | none => ""
  | some .FULL => " PERMISSIONS FULL"
  | some .NONE => " PERMISSIONS NONE"
  | some (.perOp sel cre upd del) =>
    " PERMISSIONS" ++ optClause " FOR select " sel ++ optClause " FOR create " cre
      ++ optClause " FOR update " upd ++ optClause " FOR delete " del

/-- `Table.generateCreateTableSQL` (lines 309-361): table statement
first, then a comment line, field statements, indexes, constraints,
triggers. -/
def generateCreateTableSQL (tb : String) (cfg : TableConfig) : String :=
  let schemaMode := cfg.schema.getD "SCHEMALESS"
  let tableDef :=
    "DEFINE TABLE IF NOT EXISTS " ++ tb ++ " " ++ schemaMode
      ++ tablePermsClause cfg.permissions ++ ";"
  let parts : List String :=
    [tableDef]
    ++ (match cfg.comment with
        | some c => if c == "" then [] else ["-- " ++ c]
        | none => [])
    ++ cfg.fields.map (fun p => generateFieldSQL tb p.1 p.2)
    ++ cfg.indexes.map (generateIndexSQL tb)
    ++ cfg.constraints.map (generateConstraintSQL tb)
    ++ cfg.triggers.map (generateTriggerSQL tb)
  joinSep "\n" parts

/-! ## Diff planner

Faithful port of `Table.planDiff` (lines 419-507).  Each loop iteration
pushes at most one statement, so each loop is a `filterMap`; the
table-level comparison appends at most one `ALTER TABLE` statement.
The introspection result is an explicit argument (the method obtains it
from `this.getInfo()`). -/

/-- `want = create.replace("IF NOT EXISTS ", "OVERWRITE ")` — the
overwrite variant of a compiled statement (first occurrence only, as
JavaScript's string `replace` does). -/
def overwriteSQL (s : String) : String := replaceFirst s "IF NOT EXISTS " "OVERWRITE "

/-- The statement (if any) contributed by one desired field
(lines 423-432).  `info.fields[name]` is a raw string, so the
truthiness test `!have` also treats an empty string as absent. -/
def fieldPart (tb : String) (info : TableInfo) (p : String × FieldConfig) : Option String :=
  match info.fields.lookup p.1 with
  | none => some (generateFieldSQL tb p.1 p.2)
  | some h =>
    if h == "" then some (generateFieldSQL tb p.1 p.2)
    else
      let want := overwriteSQL (generateFieldSQL tb p.1 p.2)
      if normalized h == normalized want then none else some want

/-- The statement (if any) contributed by one desired index
(lines 434-445).  `info.indexes[name]` is an object `{ sql }`, always
truthy when present, so even an empty `sql` is compared. -/
def indexPart (tb : String) (info : TableInfo) (idx : IndexConfig) : Option String :=
  match info.indexes.lookup idx.name with
  | none => some (generateIndexSQL tb idx)
  | some h =>
    let want := overwriteSQL (generateIndexSQL tb idx)
    if normalized h == normalized want then none else some want

/-- The statement (if any) contributed by one desired constraint
(lines 447-457), compared against `info.events[name]?.sql` (truthiness
again treats an empty sql as absent). -/
def constraintPart (tb : String) (info : TableInfo) (c : ConstraintConfig) : Option String :=
  let want := overwriteSQL (generateConstraintSQL tb c)
  match info.events.lookup c.name with
  | none => some (generateConstraintSQL tb c)
  | some h =>
    if h == "" then some (generateConstraintSQL tb c)
    else if normalized h == normalized want then none else some want

/-- The statement (if any) contributed by one desired trigger
(lines 459-469). -/
def triggerPart (tb : String) (info : TableInfo) (t : TriggerConfig) : Option String :=
  let want := overwriteSQL (generateTriggerSQL tb t)
  match info.events.lookup t.name with
  | none => some (generateTriggerSQL tb t)
  | some h =>
    if h == "" then some (generateTriggerSQL tb t)
    else if normalized h == normalized want then none else some want

/-- `samePerms` (lines 473-483): both absent are equal, one absent is
not; a blanket string compares by strict equality (hence never equal to
a map); two maps compare their four slots, absent slots defaulting to
the empty string. -/
def samePerms : Option Permissions → Option Permissions → Bool
  | none, none => true
  | none, some _ => false
  | some _, none => false
  | some a, some b =>
    match a, b with
    | .FULL, .FULL => true
    | .NONE, .NONE => true
    | .FULL, _ => false
    | .NONE, _ => false
    | _, .FULL => false
    | _, .NONE => false
    | .perOp s1 c1 u1 d1, .perOp s2 c2 u2 d2 =>
      s1.getD "" == s2.getD "" && c1.getD "" == c2.getD ""
        && u1.getD "" == u2.getD "" && d1.getD "" == d2.getD ""

/-- `if (slot) p.push("FOR op " + slot)` for the alter permissions
clause. -/
def optForClause (pre : String) : Option String → List String
  | some s => if s == "" then [] else [pre ++ s]
  | none => []

/-- The inner permission push of the alter block (lines 491-500):
blanket values map to one clause; a map pushes a clause only when at
least one slot is truthy; a missing desired permission pushes nothing
even when the difference guard fired. -/
def permsToClauses : Option Permissions → List String
  | some .FULL => ["PERMISSIONS FULL"]
  | some .NONE => ["PERMISSIONS NONE"]
  | some (.perOp sel cre upd del) =>
    let ps := optForClause "FOR select " sel ++ optForClause "FOR create " cre
      ++ optForClause "FOR update " upd ++ optForClause "FOR delete " del
    if ps.isEmpty then [] else ["PERMISSIONS " ++ joinSep " " ps]
  | none => []

/-- The schema-mode difference guard (line 484):
`config.schema && config.schema !== currentTable?.schema`. -/
def schemaAlterNeeded (cfg : TableConfig) (info : TableInfo) : Bool :=
  match cfg.schema with
  | some s => s != "" && some s != info.table.bind (·.schema)
  | none => false

/-- The permissions difference guard (lines 487-490):
`(config.permissions && !samePerms(..)) || (!config.permissions && current)`. -/
def permsAlterGuard (cfg : TableConfig) (info : TableInfo) : Bool :=
  (cfg.permissions.isSome && !samePerms cfg.permissions (info.table.bind (·.permissions)))
    || (cfg.permissions.isNone && (info.table.bind (·.permissions)).isSome)

/-- The comment difference guard (line 502):
`config.comment !== undefined && config.comment !== (currentTable?.comment ?? undefined)`. -/
def commentAlterNeeded (cfg : TableConfig) (info : TableInfo) : Bool :=
  match cfg.comment with
  | some c => some c != info.table.bind (·.comment)
  | none => false

/-- The `alters` list of differing table aspects (lines 470-504), in
the fixed order: schema mode, permissions, comment. -/
def altersList (cfg : TableConfig) (info : TableInfo) : List String :=
  (if schemaAlterNeeded cfg info then [cfg.schema.getD ""] else [])
    ++ (if permsAlterGuard cfg info then permsToClauses cfg.permissions else [])
    ++ (if commentAlterNeeded cfg info then
          ["COMMENT " ++ Lit.json (.str (cfg.comment.getD ""))]
        else [])

/-- The single aggregated `ALTER TABLE` statement (line 505). -/
def alterStatement (tb : String) (cfg : TableConfig) (info : TableInfo) : String :=
  "ALTER TABLE " ++ tb ++ " " ++ joinSep " " (altersList cfg info) ++ ";"

/-- The ordered statement list assembled by `Table.planDiff`: fields,
indexes, constraints, triggers, then the aggregated alter statement
when any table aspect differs. -/
def planParts (tb : String) (cfg : TableConfig) (info : TableInfo) : List String :=
  cfg.fields.filterMap (fieldPart tb info)
    ++ cfg.indexes.filterMap (indexPart tb info)
    ++ cfg.constraints.filterMap (constraintPart tb info)
    ++ cfg.triggers.filterMap (triggerPart tb info)
    ++ (if (altersList cfg info).isEmpty then [] else [alterStatement tb cfg info])

/-- `Table.planDiff` — the plan text (parts joined by newlines). -/
def planDiff (tb : String) (cfg : TableConfig) (info : TableInfo) : String :=
  joinSep "\n" (planParts tb cfg info)

/-! ## Plan applier and introspection plumbing -/

/-- Effect model of `Table.applyDiff` (lines 510-513): the list of
query strings sent to the database, given the computed plan text.
`if (sql.trim()) await this.rpc.query(sql)` issues one query exactly
when the trimmed plan is non-empty. -/
def applyDiffQueries (plan : String) : List String :=
  if jsTrim plan != "" then [plan] else []

/-- `SurrealORM.planDiff` (lines 1259-1266): non-blank per-table plans
joined by blank lines, in schema declaration order.  Each table is a
(name, desired config, introspection result) triple. -/
def ormPlanDiff (tables : List (String × TableConfig × TableInfo)) : String :=
  joinSep "\n\n" (tables.filterMap (fun t =>
    let s := planDiff t.1 t.2.1 t.2.2
    if jsTrim s != "" then some s else none))

/-- Effect model of `SurrealORM.applyDiff` (lines 1269-1272). -/
def ormApplyDiffQueries (tables : List (String × TableConfig × TableInfo)) : List String :=
  applyDiffQueries (ormPlanDiff tables)

/-- The raw permissions member of an `INFO FOR TABLE` result: a string
or a per-operation object. -/
inductive RawPerms : Type where
  | str (s : String)
  | obj (sel cre upd del : Option String)

/-- The raw result object of `INFO FOR TABLE` as read by
`Table.getInfo` (fields/indexes/events keyed by name with raw
definition text, plus `permissions`, `comment`, and `schema` / `mode`
members that may be absent). -/
structure RawTableInfo : Type where
  fields : List (String × String) := []
  indexes : List (String × String) := []
  events : List (String × String) := []
  permissions : Option RawPerms := none
  comment : Option String := none
  schemaField : Option String := none
  mode : Option String := none

/-- The permission normalization in `Table.getInfo` (lines 380-392):
an uppercased blanket string is kept only if it is FULL or NONE; an
object keeps its truthy slots and is dropped when all are absent. -/
def normalizeRawPerms : Option RawPerms → Option Permissions
  | none => none
  | some (.str s) =>
    let p := asciiUpper s
    if p == "FULL" then some .FULL
    else if p == "NONE" then some .NONE
    else none
  | some (.obj sel cre upd del) =>
    let keep : Option String → Option String := fun o =>
      match o with
      | some s => if s == "" then none else some s
      | none => none
    let sel := keep sel
    let cre := keep cre
    let upd := keep upd
    let del := keep del
    if sel.isNone && cre.isNone && upd.isNone && del.isNone then none
    else some (.perOp sel cre upd del)

/-- `Table.getInfo` (lines 370-405): the query outcome is passed in
(`Except Unit _` models resolve/reject).  On rejection the catch block
returns empty maps and no table attributes; on success the table
attributes are normalized. -/
def getInfo : Except Unit RawTableInfo → TableInfo
  | .error _ => {}
  | .ok raw =>
    { fields := raw.fields
      indexes := raw.indexes
      events := raw.events
      table := some
        { schema := raw.schemaField <|> raw.mode
          permissions := normalizeRawPerms raw.permissions
          comment := raw.comment } }

/-! ## Raw-definition parsing (`SurrealORM.introspectTable`)

The source parses raw definition text with regular expressions.  Each
pattern is modelled by an explicit scanner over `List Char` that
implements the same semantics: leftmost match, case-insensitive
literals, greedy `\s+` with backtracking where a following lazy capture
needs it, lazy `[^;]+?` capture bounded by the terminator alternation
`(?:\s+READONLY|\s+ASSERT|\s+PERMISSIONS|;)`. -/

/-- `\w` (ASCII word character). -/
def isWordChar (c : Char) : Bool :=
  ('a' ≤ c && c ≤ 'z') || ('A' ≤ c && c ≤ 'Z') || ('0' ≤ c && c ≤ '9') || c == '_'

/-- Case-insensitive literal prefix: consume `pat` from `s`, return the
rest. -/
def ciDrop : List Char → List Char → Option (List Char)
  | s, [] => some s
  | [], _ :: _ => none
  | c :: s, p :: ps => if lowerChar c == lowerChar p then ciDrop s ps else none

/-- Case-insensitive literal prefix keeping the consumed original
characters (regex captures preserve the subject's case). -/
def ciDropKeep : List Char → List Char → Option (List Char × List Char)
  | s, [] => some ([], s)
  | [], _ :: _ => none
  | c :: s, p :: ps =>
    if lowerChar c == lowerChar p then
      (ciDropKeep s ps).map (fun r => (c :: r.1, r.2))
    else none

/-- `\s+` (greedy): require at least one whitespace character, consume
the maximal run. -/
def skipWs1 : List Char → Option (List Char)
  | c :: s => if isJsWs c then some (s.dropWhile isJsWs) else none
  | [] => none

/-- Does the terminator alternation
`(?:\s+READONLY|\s+ASSERT|\s+PERMISSIONS|;)` match at this position? -/
def defaultTermAt (s : List Char) : Bool :=
  match s with
  | ';' :: _ => true
  | _ =>
    match skipWs1 s with
    | some r =>
      (ciDrop r "READONLY".data).isSome || (ciDrop r "ASSERT".data).isSome
        || (ciDrop r "PERMISSIONS".data).isSome
    | none => false

/-- Lazy `([^;]+?)` bounded by `defaultTermAt`: the shortest non-empty
semicolon-free prefix after which the terminator matches. -/
def lazyCaptureGo : List Char → List Char → Option (List Char)
  | acc, s =>
    if defaultTermAt s then some acc.reverse
    else
      match s with
      | [] => none
      | c :: r => if c == ';' then none else lazyCaptureGo (c :: acc) r

def lazyCapture : List Char → Option (List Char)
  | [] => none
  | c :: r => if c == ';' then none else lazyCaptureGo [c] r

/-- `\s+` followed by the lazy capture, with the backtracking a real
regex engine performs: the whitespace run first takes its maximal
length, then shrinks (down to one character) until the capture and its
terminator succeed. -/
def wsBacktrackGo : Nat → List Char → Option (List Char)
  | 0, _ => none
  | k + 1, r =>
    match lazyCapture (r.drop (k + 1)) with
    | some cap => some cap
    | none => wsBacktrackGo k r

def wsBacktrackCapture (r : List Char) : Option (List Char) :=
  wsBacktrackGo (r.takeWhile isJsWs).length r

/-- `DEFAULT(\s+ALWAYS)?\s+([^;]+?)(?:…)` anchored at the current
position; returns (ALWAYS present, captured expression).  The optional
group is tried first (greedy), falling back to the group-empty parse. -/
def defaultClauseAt (s : List Char) : Option (Bool × List Char) :=
  match ciDrop s "DEFAULT".data with
  | none => none
  | some r =>
    let withAlways : Option (List Char) :=
      match skipWs1 r with
      | some r1 =>
        match ciDrop r1 "ALWAYS".data with
        | some r2 => wsBacktrackCapture r2
        | none => none
      | none => none
    match withAlways with
    | some cap => some (true, cap)
    | none => (wsBacktrackCapture r).map (fun cap => (false, cap))

/-- Leftmost scan for `/\bDEFAULT(\s+ALWAYS)?\s+([^;]+?)(?:…)/i`; the
boolean tracks whether a word boundary precedes the current position. -/
def scanDefaultClause : Bool → List Char → Option (Bool × List Char)
  | _, [] => none
  | bOk, c :: rest =>
    match (if bOk then defaultClauseAt (c :: rest) else none) with
    | some x => some x
    | none => scanDefaultClause (!isWordChar c) rest

/-- `VALUE\s+([^;]+?)(?:…)` anchored at the current position. -/
def valueClauseAt (s : List Char) : Option (List Char) :=
  (ciDrop s "VALUE".data).bind wsBacktrackCapture

/-- Leftmost scan for `/\bVALUE\s+([^;]+?)(?:…)/i`. -/
def scanValueClause : Bool → List Char → Option (List Char)
  | _, [] => none
  | bOk, c :: rest =>
    match (if bOk then valueClauseAt (c :: rest) else none) with
    | some x => some x
    | none => scanValueClause (!isWordChar c) rest

/-- `TYPE\s+([^\s;]+)` anchored at the current position. -/
def typeClauseAt (s : List Char) : Option (List Char) :=
  (ciDrop s "TYPE".data).bind fun r =>
  (skipWs1 r).bind fun r1 =>
    let cap := r1.takeWhile (fun c => !isJsWs c && c != ';')
    if cap.isEmpty then none else some cap

/-- Leftmost scan for `/\bTYPE\s+([^\s;]+)/i`. -/
def scanTypeClause : Bool → List Char → Option (List Char)
  | _, [] => none
  | bOk, c :: rest =>
    match (if bOk then typeClauseAt (c :: rest) else none) with
    | some x => some x
    | none => scanTypeClause (!isWordChar c) rest

/-- `\bWORD\b` at the current position (both boundaries). -/
def wordFlagAt (w : List Char) (s : List Char) : Bool :=
  match ciDrop s w with
  | some r =>
    match r with
    | [] => true
    | c :: _ => !isWordChar c
  | none => false

/-- Leftmost scan for `/\bWORD\b/i` (used for `READONLY`, `UNIQUE`,
`HIGHLIGHTS`). -/
def scanWordFlag (w : List Char) : Bool → List Char → Bool
  | _, [] => false
  | bOk, c :: rest =>
    (bOk && wordFlagAt w (c :: rest)) || scanWordFlag w (!isWordChar c) rest

/-- `REFERENCE\s+ON\s+DELETE\s+(REJECT|CASCADE|IGNORE|UNSET|THEN\s+[^\s;]+)`
anchored at the current position (no word boundary in the source
pattern); returns the captured characters with their original case. -/
def refClauseAt (s : List Char) : Option (List Char) :=
  (ciDrop s "REFERENCE".data).bind fun r =>
  (skipWs1 r).bind fun r1 =>
  (ciDrop r1 "ON".data).bind fun r2 =>
  (skipWs1 r2).bind fun r3 =>
  (ciDrop r3 "DELETE".data).bind fun r4 =>
  (skipWs1 r4).bind fun r5 =>
    match ciDropKeep r5 "REJECT".data with
    | some (cap, _) => some cap
    | none =>
      match ciDropKeep r5 "CASCADE".data with
      | some (cap, _) => some cap
      | none =>
        match ciDropKeep r5 "IGNORE".data with
        | some (cap, _) => some cap
        | none =>
          match ciDropKeep r5 "UNSET".data with
          | some (cap, _) => some cap
          | none =>
            match ciDropKeep r5 "THEN".data with
            | some (capT, r6) =>
              let wsRun := r6.takeWhile isJsWs
              if wsRun.isEmpty then none
              else
                let afterWs := r6.dropWhile isJsWs
                let tok := afterWs.takeWhile (fun ch => !isJsWs ch && ch != ';')
                if tok.isEmpty then none else some (capT ++ wsRun ++ tok)
            | none => none

/-- Leftmost scan for the `REFERENCE ON DELETE` pattern. -/
def scanRefClause : List Char → Option (List Char)
  | [] => none
  | c :: rest =>
    match refClauseAt (c :: rest) with
    | some cap => some cap
    | none => scanRefClause rest

/-- `/[()\w]+::/.test(expr)` — the function-call syntax marker that
prevents a DEFAULT expression from being parsed as a literal. -/
def hasFnMarker : List Char → Bool
  | c1 :: c2 :: c3 :: rest =>
    ((isWordChar c1 || c1 == '(' || c1 == ')') && c2 == ':' && c3 == ':')
      || hasFnMarker (c2 :: c3 :: rest)
  | _ => false

/-! ### `JSON.parse` model and the quoted-string fallback -/

def allDigits (l : List Char) : Bool := l.all (fun c => '0' ≤ c && c ≤ '9')

def digitsToNat (l : List Char) : Nat := l.foldl (fun a c => a * 10 + (c.toNat - 48)) 0

/-- Valid JSON integer digit strings (no leading zero except "0"). -/
def jsonIntDigitsOk (ds : List Char) : Bool :=
  allDigits ds &&
    (match ds with
     | [] => false
     | ['0'] => true
     | '0' :: _ :: _ => false
     | _ => true)

/-- `JSON.parse` on the embedded literal fragment: `true`/`false`/
`null`, integers, and escape-free double-quoted strings.  Everything
else (floats, escapes, composites) is outside the fragment and parses
to `none` (in the source a parse failure falls into the `catch`). -/
def jsonParseLit (s : String) : Option Lit :=
  if s == "true" then some (.bool true)
  else if s == "false" then some (.bool false)
  else if s == "null" then some .null
  else
    match s.data with
    | '"' :: rest =>
      (match rest.reverse with
       | '"' :: midRev =>
         let mid := midRev.reverse
         if mid.all (fun c => c != '"' && c != '\\' && c != '\n' && c != '\r') then
           some (.str ⟨mid⟩)
         else none
       | _ => none)
    | '-' :: ds => if jsonIntDigitsOk ds then some (.num (-(digitsToNat ds : Int))) else none
    | ds => if jsonIntDigitsOk ds then some (.num (digitsToNat ds)) else none

def isQuoteChar (c : Char) : Bool := c == '"' || c == Char.ofNat 39

/-- `/^".*"$/` resp. `/^'.*'$/`: same quote at both ends, no line
terminators in between (`.` does not match newlines). -/
def sameQuoteWrapped (q : Char) (l : List Char) : Bool :=
  match l with
  | c :: rest =>
    c == q &&
      (match rest.reverse with
       | c2 :: midRev => c2 == q && midRev.all (fun ch => ch != '\n' && ch != '\r')
       | [] => false)
  | [] => false

def quotedShape (l : List Char) : Bool :=
  sameQuoteWrapped '"' l || sameQuoteWrapped (Char.ofNat 39) l

/-- `expr.replace(/^['"]|['"]$/g, "")`: strip one leading and one
trailing quote character (of either kind). -/
def stripEdgeQuotes (l : List Char) : List Char :=
  let l1 :=
    match l with
    | c :: rest => if isQuoteChar c then rest else l
    | [] => []
  match l1.reverse with
  | c :: rest => if isQuoteChar c then rest.reverse else l1
  | [] => l1

/-! ### `parseFieldType` (lines 940-963) -/

def recordNameCharOk (c : Char) : Bool :=
  ('a' ≤ c && c ≤ 'z') || ('0' ≤ c && c ≤ '9') || c == '_' || c == ':' || c == '-'

/-- `/^record<([a-z0-9_:-]+)>$/i` on the already-lowercased text. -/
def matchRecordType (l : List Char) : Option (List Char) :=
  (ciDrop l "record<".data).bind fun r =>
    match r.reverse with
    | '>' :: midRev =>
      let mid := midRev.reverse
      if !mid.isEmpty && mid.all recordNameCharOk then some mid else none
    | _ => none

/-- `/^array<\s*record<([^>]+)>\s*>$/i`. -/
def matchArrRecordType (l : List Char) : Option (List Char) :=
  (ciDrop l "array<".data).bind fun r =>
  (ciDrop (r.dropWhile isJsWs) "record<".data).bind fun r2 =>
    let inner := r2.takeWhile (fun c => c != '>')
    match r2.drop inner.length with
    | '>' :: rest2 =>
      if rest2.dropWhile isJsWs == ['>'] && !inner.isEmpty then some inner else none
    | _ => none

def lowerWordChar (c : Char) : Bool :=
  ('a' ≤ c && c ≤ 'z') || ('0' ≤ c && c ≤ '9') || c == '_'

/-- `/^array<\s*([a-z0-9_]+)\s*>$/i`. -/
def matchArrElemType (l : List Char) : Option String :=
  (ciDrop l "array<".data).bind fun r =>
    let r1 := r.dropWhile isJsWs
    let el := r1.takeWhile lowerWordChar
    if el.isEmpty then none
    else if (r1.drop el.length).dropWhile isJsWs == ['>'] then some ⟨el⟩ else none

/-- `SurrealORM.parseFieldType`: parse a Surreal type string into
(type, references, arrayOf); unknown or absent types default to
`object`. -/
def parseFieldType (typeStr : Option String) : String × Option String × Option ArrayOf :=
  match typeStr with
  | none => ("object", none, none)
  | some ts =>
    if ts == "" then ("object", none, none)
    else
      let t := asciiLower (jsTrim ts)
      let l := t.data
      match matchRecordType l with
      | some nm => ("record", some ⟨nm⟩, none)
      | none =>
        match matchArrRecordType l with
        | some nm => ("array", none, some (.recordOf ⟨nm⟩))
        | none =>
          match matchArrElemType l with
          | some el =>
            if el == "string" || el == "number" || el == "bool" || el == "datetime"
                || el == "object" then
              ("array", none, some (.prim el))
            else ("array", none, some (.prim "object"))
          | none =>
            if t == "string" || t == "number" || t == "bool" || t == "datetime"
                || t == "object" then
              (t, none, none)
            else ("object", none, none)

/-- Parsing of one raw field definition text in the object-map branch
of `introspectTable` (lines 998-1032): TYPE, DEFAULT (expression
defaults guarded by the function-call marker, literal defaults through
`JSON.parse` with the quoted-string fallback), VALUE, READONLY and
REFERENCE ON DELETE clauses. -/
def parseFieldFromDef (d : String) : FieldConfig :=
  let dl := d.data
  let typeStr : Option String := (scanTypeClause true dl).map (fun l => (⟨l⟩ : String))
  let base := parseFieldType typeStr
  let dParsed : Bool × Option Lit :=
    match scanDefaultClause true dl with
    | some (alw, cap) =>
      let expr := jsTrim ⟨cap⟩
      let v : Option Lit :=
        if hasFnMarker expr.data then none
        else
          match jsonParseLit expr with
          | some v => some v
          | none =>
            if quotedShape expr.data then some (.str ⟨stripEdgeQuotes expr.data⟩) else none
      (alw, v)
    | none => (false, none)
  let vx : Option String := (scanValueClause true dl).map (fun cap => jsTrim ⟨cap⟩)
  let ro : Bool := scanWordFlag "READONLY".data true dl
  let rd : Option RefDel :=
    match scanRefClause dl with
    | some cap =>
      let v : String := ⟨cap⟩
      if prefixOfChars "THEN ".data cap then some (.thenExpr (jsTrim ⟨cap.drop 5⟩))
      else some (.plain v)
    | none => none
  .mk base.1 false dParsed.2 dParsed.1 vx ro [] base.2.1 rd none base.2.2 [] false [] none

/-! ### Nested-path reconstruction (`addNested`, lines 1035-1108)

JavaScript objects are insertion-ordered maps; they are modelled as
association lists where assignment keeps an existing key's position and
appends a new key at the end. -/

/-- `m[k] = v` (JavaScript object assignment). -/
def setKey : List (String × FieldConfig) → String → FieldConfig → List (String × FieldConfig)
  | [], k, v => [(k, v)]
  | (k', v') :: rest, k, v =>
    if k' == k then (k', v) :: rest else (k', v') :: setKey rest k v

/-- `m[k] = m[k] ?? v` (keep an existing entry). -/
def insertIfAbsent (m : List (String × FieldConfig)) (k : String) (v : FieldConfig) :
    List (String × FieldConfig) :=
  match m.lookup k with
  | some _ => m
  | none => m ++ [(k, v)]

/-- The fresh container `{ type: "object", properties: {} }` created by
`ensureObject`. -/
def freshObject : FieldConfig := (fld "object").setProperties []

/-- The fresh container
`{ type: "array", arrayOf: { object: { properties: {} } } }` created by
`ensureArrayObject`. -/
def freshArrayObject : FieldConfig := (fld "array").setArrayOf (some (.obj []))

/-- The element-object properties of an array-of-object container, when
the entry already has that shape (`type === "array" && arrayOf.object`). -/
def arrObjProps (f : FieldConfig) : Option (List (String × FieldConfig)) :=
  if f.type == "array" then
    match f.arrayOf with
    | some (.obj ps) => some ps
    | _ => none
  else none

/-- The token walk of `addNested` once the cursor is inside a container
(after the first `ensureObject`/`ensureArrayObject` step): a bare `*`
token is skipped, a final token overwrites, `tok` followed by `*`
descends through an array-of-object container (normalizing a wrongly
shaped entry to a fresh container), any other token descends through an
object container. -/
def addInside (cur : List (String × FieldConfig)) :
    List String → FieldConfig → List (String × FieldConfig)
  | [], _ => cur
  | [t], cfg => if t == "*" then cur else setKey cur t cfg
  | t :: t2 :: rest, cfg =>
    if t == "*" then addInside cur (t2 :: rest) cfg
    else if t2 == "*" then
      let container :=
        match cur.lookup t with
        | some f => if (arrObjProps f).isSome then f else freshArrayObject
        | none => freshArrayObject
      let ps := (arrObjProps container).getD []
      setKey cur t (container.setArrayOf (some (.obj (addInside ps rest cfg))))
    else
      let container :=
        match cur.lookup t with
        | some f => if f.type == "object" then f else freshObject
        | none => freshObject
      setKey cur t (container.setProperties (addInside container.properties (t2 :: rest) cfg))

/-- The token walk at top level (the cursor is the result map and the
current container is still null): identical to `addInside` except that
a final token at top level keeps an existing entry (`??`). -/
def addNestedTokens (m : List (String × FieldConfig)) :
    List String → FieldConfig → List (String × FieldConfig)
  | [], _ => m
  | [t], cfg => if t == "*" then m else insertIfAbsent m t cfg
  | t :: t2 :: rest, cfg =>
    if t == "*" then addNestedTokens m (t2 :: rest) cfg
    else if t2 == "*" then
      let container :=
        match m.lookup t with
        | some f => if (arrObjProps f).isSome then f else freshArrayObject
        | none => freshArrayObject
      let ps := (arrObjProps container).getD []
      setKey m t (container.setArrayOf (some (.obj (addInside ps rest cfg))))
    else
      let container :=
        match m.lookup t with
        | some f => if f.type == "object" then f else freshObject
        | none => freshObject
      setKey m t (container.setProperties (addInside container.properties (t2 :: rest) cfg))

/-- `addNested(fullName, cfg)`: names without separators insert at top
level keeping an existing entry; names with `.` / `*` walk the token
path. -/
def addNested (m : List (String × FieldConfig)) (fullName : String) (cfg : FieldConfig) :
    List (String × FieldConfig) :=
  if !containsSubstr fullName "." && !containsSubstr fullName "*" then
    insertIfAbsent m fullName cfg
  else
    addNestedTokens m (jsSplitChar '.' fullName) cfg

/-- `for (const [fname, cfg] of Object.entries(fields)) addNested(...)`. -/
def reconstructNested (l : List (String × FieldConfig)) : List (String × FieldConfig) :=
  l.foldl (fun acc p => addNested acc p.1 p.2) []

def parseRawFields (raw : List (String × String)) : List (String × FieldConfig) :=
  raw.map (fun p => (p.1, parseFieldFromDef p.2))

/-- The composition applied to the raw fields map by `introspectTable`:
parse each raw definition, then reconstruct the nested shape. -/
def introspectFieldsMap (raw : List (String × String)) : List (String × FieldConfig) :=
  reconstructNested (parseRawFields raw)

/-! ### Index parsing (lines 1110-1138) -/

/-- `FIELDS\s+([^\s;]+)` anchored at the current position (the source
pattern has no word boundary). -/
def fieldsClauseAt (s : List Char) : Option (List Char) :=
  (ciDrop s "FIELDS".data).bind fun r =>
  (skipWs1 r).bind fun r1 =>
    let cap := r1.takeWhile (fun c => !isJsWs c && c != ';')
    if cap.isEmpty then none else some cap

def scanFieldsClause : List Char → Option (List Char)
  | [] => none
  | c :: rest =>
    match fieldsClauseAt (c :: rest) with
    | some cap => some cap
    | none => scanFieldsClause rest

def analyzerCharOk (c : Char) : Bool :=
  isWordChar c || c == ':' || c == '.' || c == '-'

/-- `SEARCH\s+ANALYZER\s+([\w:.-]+)` anchored at the current position. -/
def searchClauseAt (s : List Char) : Option (List Char) :=
  (ciDrop s "SEARCH".data).bind fun r =>
  (skipWs1 r).bind fun r1 =>
  (ciDrop r1 "ANALYZER".data).bind fun r2 =>
  (skipWs1 r2).bind fun r3 =>
    let cap := r3.takeWhile analyzerCharOk
    if cap.isEmpty then none else some cap

def scanSearchClause : List Char → Option (List Char)
  | [] => none
  | c :: rest =>
    match searchClauseAt (c :: rest) with
    | some cap => some cap
    | none => scanSearchClause rest

/-- `BM25\s*\(\s*([^,)]*)\s*,\s*([^)]*)\)` anchored at the current
position; the captures are trimmed by the caller before use. -/
def bm25ClauseAt (s : List Char) : Option (List Char × List Char) :=
  (ciDrop s "BM25".data).bind fun r =>
    match r.dropWhile isJsWs with
    | '(' :: r2 =>
      let r3 := r2.dropWhile isJsWs
      let cap1 := r3.takeWhile (fun c => c != ',' && c != ')')
      (match r3.drop cap1.length with
       | ',' :: r4 =>
         let r5 := r4.dropWhile isJsWs
         let cap2 := r5.takeWhile (fun c => c != ')')
         (match r5.drop cap2.length with
          | ')' :: _ => some (cap1, cap2)
          | _ => none)
       | _ => none)
    | _ => none

def scanBm25 : List Char → Option (List Char × List Char)
  | [] => none
  | c :: rest =>
    match bm25ClauseAt (c :: rest) with
    | some x => some x
    | none => scanBm25 rest

/-- `Number(s)` on the embedded integer fragment (an optional sign and
decimal digits; other numeric strings are outside the fragment). -/
def jsIntParse (s : String) : Option Int :=
  match s.data with
  | '-' :: ds => if allDigits ds && !ds.isEmpty then some (-(digitsToNat ds : Int)) else none
  | ds => if allDigits ds && !ds.isEmpty then some (digitsToNat ds) else none

/-- Parsing of one introspected index entry (name, raw sql). -/
def parseIndexEntry (p : String × String) : IndexConfig :=
  let l := p.2.data
  let fieldsList : List String :=
    match scanFieldsClause l with
    | some cap => (jsSplitChar ',' (⟨cap⟩ : String)).map jsTrim
    | none => []
  let uq : Bool := scanWordFlag "UNIQUE".data true l
  let search : Option SearchConfig :=
    match scanSearchClause l with
    | some an =>
      let bm : Option (Option Int × Option Int) :=
        match scanBm25 l with
        | some (c1, c2) =>
          let k1s := jsTrim ⟨c1⟩
          let bs := jsTrim ⟨c2⟩
          some ((if k1s != "" then jsIntParse k1s else none),
                (if bs != "" then jsIntParse bs else none))
        | none => none
      some { analyzer := ⟨an⟩, bm25 := bm,
             highlights := scanWordFlag "HIGHLIGHTS".data true l }
    | none => none
  { name := p.1, fields := fieldsList, unique := uq, search := search }

/-! ### `introspectTable` plumbing (lines 966-975 and 1140-1161) -/

/-- The raw result object of a table introspection query as consumed by
`SurrealORM.introspectTable`: the object-map shape with raw definition
text per field and per index, plus raw permissions.  (The
array-of-structures branch taken when `INFO … STRUCTURE` returns field
arrays, lines 979-997, is outside the embedded fragment; both query
outcomes carry this shape here.) -/
structure RawIntroInfo : Type where
  fields : List (String × String) := []
  indexes : List (String × String) := []
  permissions : Option RawPerms := none

/-- The try/catch of lines 968-975: the `STRUCTURE` query result is
used when it resolves; on rejection the plain query's outcome is used —
including its rejection, which propagates. -/
def introspectInfoResult (structuredRes rawRes : Except Unit RawIntroInfo) :
    Except Unit RawIntroInfo :=
  match structuredRes with
  | .ok j => .ok j
  | .error _ => rawRes

/-- The pure processing of a resolved introspection result
(lines 977-1160): parse + reconstruct fields, parse indexes, normalize
permissions (same normalization as `Table.getInfo`). -/
def processIntroInfo (raw : RawIntroInfo) : TableConfig :=
  { fields := introspectFieldsMap raw.fields
    indexes := raw.indexes.map parseIndexEntry
    permissions := normalizeRawPerms raw.permissions }

/-- `SurrealORM.introspectTable`, given the outcomes of the structured
and the raw introspection queries. -/
def introspectTable (structuredRes rawRes : Except Unit RawIntroInfo) :
    Except Unit TableConfig :=
  (introspectInfoResult structuredRes rawRes).map processIntroInfo

/-! ## Match predicates

Hypothesis forms for the planner theorems: a desired object *matches*
the live state when its name is present with a non-empty raw text that
is normalizer-equivalent to the recompiled overwrite variant (for
indexes, presence alone suffices for the comparison branch, the `{sql}`
object being always truthy). -/

def fieldMatchesB (tb : String) (info : TableInfo) (p : String × FieldConfig) : Bool :=
  match info.fields.lookup p.1 with
  | some h => h != "" && normEquiv h (overwriteSQL (generateFieldSQL tb p.1 p.2))
  | none => false

def indexMatchesB (tb : String) (info : TableInfo) (idx : IndexConfig) : Bool :=
  match info.indexes.lookup idx.name with
  | some h => normEquiv h (overwriteSQL (generateIndexSQL tb idx))
  | none => false

def constraintMatchesB (tb : String) (info : TableInfo) (c : ConstraintConfig) : Bool :=
  match info.events.lookup c.name with
  | some h => h != "" && normEquiv h (overwriteSQL (generateConstraintSQL tb c))
  | none => false

def triggerMatchesB (tb : String) (info : TableInfo) (t : TriggerConfig) : Bool :=
  match info.events.lookup t.name with
  | some h => h != "" && normEquiv h (overwriteSQL (generateTriggerSQL tb t))
  | none => false

/-- The desired table attributes match the introspected ones: none of
the three alter guards fires. -/
def tableAttrsMatchB (cfg : TableConfig) (info : TableInfo) : Bool :=
  !schemaAlterNeeded cfg info && !permsAlterGuard cfg info && !commentAlterNeeded cfg info

theorem fieldPart_eq_none_of_match (tb : String) (info : TableInfo) (p : String × FieldConfig)
    (h : fieldMatchesB tb info p = true) : fieldPart tb info p = none := by
  unfold fieldMatchesB at h
  unfold fieldPart
  cases hL : info.fields.lookup p.1 with
  | none => rw [hL] at h; cases h
  | some v =>
    rw [hL] at h
    obtain ⟨h1, h2⟩ := (Bool.and_eq_true _ _) ▸ h
    have hv : (v == "") = false := by simpa using h1
    unfold normEquiv at h2
    simp [hv, h2]

theorem indexPart_eq_none_of_match (tb : String) (info : TableInfo) (idx : IndexConfig)
    (h : indexMatchesB tb info idx = true) : indexPart tb info idx = none := by
  unfold indexMatchesB at h
  unfold indexPart
  cases hL : info.indexes.lookup idx.name with
  | none => rw [hL] at h; cases h
  | some v =>
    rw [hL] at h
    have h' : (normalized v == normalized (overwriteSQL (generateIndexSQL tb idx))) = true := h
    simp [h']

theorem constraintPart_eq_none_of_match (tb : String) (info : TableInfo) (c : ConstraintConfig)
    (h : constraintMatchesB tb info c = true) : constraintPart tb info c = none := by
  unfold constraintMatchesB at h
  unfold constraintPart
  cases hL : info.events.lookup c.name with
  | none => rw [hL] at h; cases h
  | some v =>
    rw [hL] at h
    obtain ⟨h1, h2⟩ := (Bool.and_eq_true _ _) ▸ h
    have hv : (v == "") = false := by simpa using h1
    unfold normEquiv at h2
    simp [hv, h2]

theorem triggerPart_eq_none_of_match (tb : String) (info : TableInfo) (t : TriggerConfig)
    (h : triggerMatchesB tb info t = true) : triggerPart tb info t = none := by
  unfold triggerMatchesB at h
  unfold triggerPart
  cases hL : info.events.lookup t.name with
  | none => rw [hL] at h; cases h
  | some v =>
    rw [hL] at h
    obtain ⟨h1, h2⟩ := (Bool.and_eq_true _ _) ▸ h
    have hv : (v == "") = false := by simpa using h1
    unfold normEquiv at h2
    simp [hv, h2]

theorem altersList_eq_nil_of_match (cfg : TableConfig) (info : TableInfo)
    (h : tableAttrsMatchB cfg info = true) : altersList cfg info = [] := by
  have h' : (schemaAlterNeeded cfg info = false ∧ permsAlterGuard cfg info = false)
      ∧ commentAlterNeeded cfg info = false := by
    simpa [tableAttrsMatchB, Bool.and_eq_true, Bool.not_eq_true'] using h
  obtain ⟨⟨h1, h2⟩, h3⟩ := h'
  unfold altersList
  rw [h1, h2, h3]
  simp

/-! ## Claim theorems -/

/-- Claim C1: planning a diff against an introspection state in which
every desired field, index, constraint and trigger is present with raw
text normalizer-equivalent to its recompiled overwrite variant, and in
which the table attributes match (none of the schema-mode, permissions
or comment difference guards fires), yields the empty plan: a fresh
compile applied once and re-planned produces no statements. -/
theorem planDiff_idempotent (tb : String) (cfg : TableConfig) (info : TableInfo)
    (hf : ∀ p ∈ cfg.fields, fieldMatchesB tb info p = true)
    (hi : ∀ i ∈ cfg.indexes, indexMatchesB tb info i = true)
    (hc : ∀ c ∈ cfg.constraints, constraintMatchesB tb info c = true)
    (ht : ∀ t ∈ cfg.triggers, triggerMatchesB tb info t = true)
    (ha : tableAttrsMatchB cfg info = true) :
    planDiff tb cfg info = "" := by
  unfold planDiff planParts
  rw [List.filterMap_eq_nil_iff.mpr (fun p hp => fieldPart_eq_none_of_match tb info p (hf p hp)),
    List.filterMap_eq_nil_iff.mpr (fun i hmem => indexPart_eq_none_of_match tb info i (hi i hmem)),
    List.filterMap_eq_nil_iff.mpr
      (fun c hmem => constraintPart_eq_none_of_match tb info c (hc c hmem)),
    List.filterMap_eq_nil_iff.mpr (fun t hmem => triggerPart_eq_none_of_match tb info t (ht t hmem)),
    altersList_eq_nil_of_match cfg info ha]
  simp [joinSep]

def idemCfg : TableConfig :=
  { fields := [("email", fld "string")],
    indexes := [{ name := "idx_email", fields := ["email"], unique := true }] }

def idemInfo : TableInfo :=
  { fields := [("email", "DEFINE FIELD OVERWRITE email ON TABLE users TYPE string;")],
    indexes := [("idx_email", "DEFINE INDEX OVERWRITE idx_email ON TABLE users FIELDS email UNIQUE;")],
    table := some {} }

/-- Claim C1 witness: a concrete one-field, one-index table whose live
state carries exactly the recompiled definitions plans to an empty
string. -/
theorem planDiff_idempotent_witness : planDiff "users" idemCfg idemInfo = "" :=
  planDiff_idempotent "users" idemCfg idemInfo (by decide) (by decide) (by decide) (by decide)
    (by decide)

/-- The desired `users` table of the concrete C2 scenario: one required
string field `email` and one unique index on it. -/
def usersCfgC2 : TableConfig :=
  { fields := [("email", (fld "string").setRequired true)],
    indexes := [{ name := "idx_email", fields := ["email"], unique := true }] }

/-- Claim C2 counterexample: on a fresh database (the introspection
query rejects, so `getInfo` returns empty maps), the plan produced by
`planDiff` contains no table-create statement at all — every
table-create statement begins `DEFINE TABLE`, and that text occurs
nowhere in the plan.  This refutes the claimed shape
table-create, then field-create, then index-create. -/
theorem planDiff_fresh_lacks_table_create :
    containsSubstr (planDiff "users" usersCfgC2 (getInfo (.error ()))) "DEFINE TABLE" = false := by
  decide

/-- Claim C2 (amended): on a fresh database the plan consists of
exactly one field-create statement for `email` followed by one
index-create statement for the unique index, in that order, and no
table-create statement; the `DEFINE TABLE` statement is emitted by
`generateCreateTableSQL` (used by `create`/`planMissing`), not by
`planDiff`. -/
theorem planDiff_fresh_users_plan :
    planDiff "users" usersCfgC2 (getInfo (.error ())) =
      "DEFINE FIELD IF NOT EXISTS email ON TABLE users TYPE string ASSERT $value != NONE;\n"
        ++ "DEFINE INDEX IF NOT EXISTS idx_email ON TABLE users FIELDS email UNIQUE;"
    ∧ containsSubstr (generateCreateTableSQL "users" usersCfgC2) "DEFINE TABLE" = true := by
  constructor
  · decide
  · decide

/-- The C3 diff-minimality scenario: actual equals desired except for
the `age` field's default value. -/
def minimalityCfg : TableConfig :=
  { fields := [("name", fld "string"), ("age", (fld "number").setDefault (some (.num 18)))] }

def minimalityInfo : TableInfo :=
  { fields := [("name", "DEFINE FIELD OVERWRITE name ON TABLE users TYPE string;"),
               ("age", "DEFINE FIELD OVERWRITE age ON TABLE users TYPE number DEFAULT 21;")] }

/-- Claim C3: a desired field absent from the introspected fields map
contributes the compiler's create statement verbatim; a present field
(with non-empty raw text) contributes the overwrite variant exactly
when the raw text and the overwrite variant differ under the
normalizer, and nothing when they are equivalent; consequently, when
actual equals desired except for one field's default value, the plan is
exactly that field's overwrite statement and nothing else. -/
theorem planDiff_field_create_overwrite :
    (∀ (tb : String) (info : TableInfo) (nm : String) (fc : FieldConfig),
        info.fields.lookup nm = none →
        fieldPart tb info (nm, fc) = some (generateFieldSQL tb nm fc))
    ∧ (∀ (tb : String) (info : TableInfo) (nm : String) (fc : FieldConfig) (h : String),
        info.fields.lookup nm = some h → h ≠ "" →
        fieldPart tb info (nm, fc) =
          (if normalized h == normalized (overwriteSQL (generateFieldSQL tb nm fc)) then none
           else some (overwriteSQL (generateFieldSQL tb nm fc))))
    ∧ planDiff "users" minimalityCfg minimalityInfo =
        "DEFINE FIELD OVERWRITE age ON TABLE users TYPE number DEFAULT 18;" := by
  refine ⟨?_, ?_, by decide⟩
  · intro tb info nm fc hL
    unfold fieldPart
    rw [hL]
  · intro tb info nm fc h hL hne
    have hv : (h == "") = false := by
      cases hvv : h == "" with
      | false => rfl
      | true => exact absurd (by simpa using hvv) hne
    unfold fieldPart
    rw [hL]
    simp [hv]

/-- Claim C3 witness: the absent-field conjunct applied to an empty
introspection state yields the verbatim create statement. -/
theorem planDiff_field_create_overwrite_witness :
    fieldPart "users" {} ("email", fld "string")
      = some (generateFieldSQL "users" "email" (fld "string")) :=
  planDiff_field_create_overwrite.1 "users" {} "email" (fld "string") rfl

/-- The C4 scenario where both schema mode and comment differ and
nothing else does. -/
def alterBothCfg : TableConfig :=
  { fields := [("f", fld "string")], schema := some "SCHEMAFULL", comment := some "new" }

def alterBothInfo : TableInfo :=
  { fields := [("f", "DEFINE FIELD OVERWRITE f ON TABLE tb TYPE string;")],
    table := some { schema := some "SCHEMALESS", comment := some "old" } }

/-- A C4 fixture where all three table aspects differ (order check). -/
def alterAllCfg : TableConfig :=
  { fields := [], schema := some "SCHEMAFULL", permissions := some .FULL, comment := some "new" }

def alterAllInfo : TableInfo :=
  { table := some { schema := some "SCHEMALESS",
                    permissions := some (.perOp (some "x = true") none none none),
                    comment := some "old" } }

/-- Claim C4: when every desired field/index/constraint/trigger matches
the live state and at least one table aspect differs, the plan is
exactly one `ALTER TABLE` statement listing the differing aspects in
the fixed order mode, permissions, comment; in the concrete
both-mode-and-comment scenario the plan is a single `ALTER TABLE`
statement carrying both aspects and zero per-field statements; and
permission structural equality compares the four operation slots
independently with the empty default, a blanket FULL/NONE never being
equal to a per-operation map. -/
theorem planDiff_table_alter_aggregation :
    (∀ (tb : String) (cfg : TableConfig) (info : TableInfo),
        (∀ p ∈ cfg.fields, fieldMatchesB tb info p = true) →
        (∀ i ∈ cfg.indexes, indexMatchesB tb info i = true) →
        (∀ c ∈ cfg.constraints, constraintMatchesB tb info c = true) →
        (∀ t ∈ cfg.triggers, triggerMatchesB tb info t = true) →
        altersList cfg info ≠ [] →
        planDiff tb cfg info = "ALTER TABLE " ++ tb ++ " " ++ joinSep " " (altersList cfg info) ++ ";")
    ∧ altersList alterBothCfg alterBothInfo = ["SCHEMAFULL", "COMMENT \"new\""]
    ∧ planDiff "tb" alterBothCfg alterBothInfo = "ALTER TABLE tb SCHEMAFULL COMMENT \"new\";"
    ∧ altersList alterAllCfg alterAllInfo = ["SCHEMAFULL", "PERMISSIONS FULL", "COMMENT \"new\""]
    ∧ (∀ a b c d : Option String, samePerms (some .FULL) (some (.perOp a b c d)) = false)
    ∧ (∀ a b c d : Option String, samePerms (some (.perOp a b c d)) (some .FULL) = false)
    ∧ (∀ a b c d : Option String, samePerms (some .NONE) (some (.perOp a b c d)) = false)
    ∧ (∀ a b c d : Option String, samePerms (some (.perOp a b c d)) (some .NONE) = false)
    ∧ (∀ s1 c1 u1 d1 s2 c2 u2 d2 : Option String,
        samePerms (some (.perOp s1 c1 u1 d1)) (some (.perOp s2 c2 u2 d2))
          = (s1.getD "" == s2.getD "" && c1.getD "" == c2.getD ""
              && u1.getD "" == u2.getD "" && d1.getD "" == d2.getD "")) := by
  refine ⟨?_, by decide, by decide, by decide,
    fun a b c d => rfl, fun a b c d => rfl, fun a b c d => rfl, fun a b c d => rfl,
    fun s1 c1 u1 d1 s2 c2 u2 d2 => rfl⟩
  intro tb cfg info hf hi hc ht hne
  unfold planDiff planParts
  rw [List.filterMap_eq_nil_iff.mpr (fun p hp => fieldPart_eq_none_of_match tb info p (hf p hp)),
    List.filterMap_eq_nil_iff.mpr (fun i hmem => indexPart_eq_none_of_match tb info i (hi i hmem)),
    List.filterMap_eq_nil_iff.mpr
      (fun c hmem => constraintPart_eq_none_of_match tb info c (hc c hmem)),
    List.filterMap_eq_nil_iff.mpr (fun t hmem => triggerPart_eq_none_of_match tb info t (ht t hmem))]
  rw [if_neg (by simpa using hne)]
  simp [joinSep, alterStatement]

/-- Claim C4 witness: the aggregated-alter conjunct applied to the
concrete both-differ scenario. -/
theorem planDiff_table_alter_aggregation_witness :
    planDiff "tb" alterBothCfg alterBothInfo =
      "ALTER TABLE " ++ "tb" ++ " " ++ joinSep " " (altersList alterBothCfg alterBothInfo) ++ ";" :=
  planDiff_table_alter_aggregation.1 "tb" alterBothCfg alterBothInfo
    (by decide) (by decide) (by decide) (by decide) (by decide)

theorem fieldPart_shape (tb : String) (info : TableInfo) (p : String × FieldConfig)
    (s : String) (h : fieldPart tb info p = some s) :
    s = generateFieldSQL tb p.1 p.2 ∨ s = overwriteSQL (generateFieldSQL tb p.1 p.2) := by
  unfold fieldPart at h
  dsimp only at h
  split at h
  · exact Or.inl (Option.some_injective _ h).symm
  · split at h
    · exact Or.inl (Option.some_injective _ h).symm
    · split at h
      · cases h
      · exact Or.inr (Option.some_injective _ h).symm

theorem indexPart_shape (tb : String) (info : TableInfo) (idx : IndexConfig)
    (s : String) (h : indexPart tb info idx = some s) :
    s = generateIndexSQL tb idx ∨ s = overwriteSQL (generateIndexSQL tb idx) := by
  unfold indexPart at h
  dsimp only at h
  split at h
  · exact Or.inl (Option.some_injective _ h).symm
  · split at h
    · cases h
    · exact Or.inr (Option.some_injective _ h).symm

theorem constraintPart_shape (tb : String) (info : TableInfo) (c : ConstraintConfig)
    (s : String) (h : constraintPart tb info c = some s) :
    s = generateConstraintSQL tb c ∨ s = overwriteSQL (generateConstraintSQL tb c) := by
  unfold constraintPart at h
  dsimp only at h
  split at h
  · exact Or.inl (Option.some_injective _ h).symm
  · split at h
    · exact Or.inl (Option.some_injective _ h).symm
    · split at h
      · cases h
      · exact Or.inr (Option.some_injective _ h).symm

theorem triggerPart_shape (tb : String) (info : TableInfo) (t : TriggerConfig)
    (s : String) (h : triggerPart tb info t = some s) :
    s = generateTriggerSQL tb t ∨ s = overwriteSQL (generateTriggerSQL tb t) := by
  unfold triggerPart at h
  dsimp only at h
  split at h
  · exact Or.inl (Option.some_injective _ h).symm
  · split at h
    · exact Or.inl (Option.some_injective _ h).symm
    · split at h
      · cases h
      · exact Or.inr (Option.some_injective _ h).symm

/-- Claim C5: every statement of the normal plan originates from an
object named in the desired configuration — a create or overwrite
statement for a desired field, index, constraint or trigger, or the
single `ALTER TABLE` statement; live objects absent from the desired
config are never dropped (no removal statement exists in the plan). -/
theorem planDiff_nondestructive (tb : String) (cfg : TableConfig) (info : TableInfo)
    (s : String) (hs : s ∈ planParts tb cfg info) :
    (∃ p ∈ cfg.fields,
        s = generateFieldSQL tb p.1 p.2 ∨ s = overwriteSQL (generateFieldSQL tb p.1 p.2))
    ∨ (∃ i ∈ cfg.indexes, s = generateIndexSQL tb i ∨ s = overwriteSQL (generateIndexSQL tb i))
    ∨ (∃ c ∈ cfg.constraints,
        s = generateConstraintSQL tb c ∨ s = overwriteSQL (generateConstraintSQL tb c))
    ∨ (∃ t ∈ cfg.triggers,
        s = generateTriggerSQL tb t ∨ s = overwriteSQL (generateTriggerSQL tb t))
    ∨ s = alterStatement tb cfg info := by
  unfold planParts at hs
  rcases List.mem_append.mp hs with hs | hs5
  rotate_left
  · -- the alter chunk
    refine Or.inr (Or.inr (Or.inr (Or.inr ?_)))
    by_cases he : (altersList cfg info).isEmpty = true
    · rw [if_pos he] at hs5; cases hs5
    · rw [if_neg he] at hs5
      simpa using hs5
  rcases List.mem_append.mp hs with hs | hs4
  rotate_left
  · obtain ⟨t, hmem, hft⟩ := List.mem_filterMap.mp hs4
    exact Or.inr (Or.inr (Or.inr (Or.inl ⟨t, hmem, triggerPart_shape tb info t s hft⟩)))
  rcases List.mem_append.mp hs with hs | hs3
  rotate_left
  · obtain ⟨c, hmem, hfc⟩ := List.mem_filterMap.mp hs3
    exact Or.inr (Or.inr (Or.inl ⟨c, hmem, constraintPart_shape tb info c s hfc⟩))
  rcases List.mem_append.mp hs with hs1 | hs2
  · obtain ⟨p, hmem, hfp⟩ := List.mem_filterMap.mp hs1
    exact Or.inl ⟨p, hmem, fieldPart_shape tb info p s hfp⟩
  · obtain ⟨i, hmem, hfi⟩ := List.mem_filterMap.mp hs2
    exact Or.inr (Or.inl ⟨i, hmem, indexPart_shape tb info i s hfi⟩)

/-- The C5 witness scenario: the live state has a field `legacy` absent
from the desired config. -/
def ndCfg : TableConfig := { fields := [("email", fld "string")] }

def ndInfo : TableInfo :=
  { fields := [("legacy", "DEFINE FIELD legacy ON TABLE users TYPE string;")] }

/-- Claim C5 witness: in a state with a live `legacy` field absent from
the desired config, the only planned statement is accounted for by the
desired `email` field. -/
theorem planDiff_nondestructive_witness :
    (∃ p ∈ ndCfg.fields,
        "DEFINE FIELD IF NOT EXISTS email ON TABLE users TYPE string;"
            = generateFieldSQL "users" p.1 p.2
          ∨ "DEFINE FIELD IF NOT EXISTS email ON TABLE users TYPE string;"
            = overwriteSQL (generateFieldSQL "users" p.1 p.2))
    ∨ (∃ i ∈ ndCfg.indexes,
        "DEFINE FIELD IF NOT EXISTS email ON TABLE users TYPE string;"
            = generateIndexSQL "users" i
          ∨ "DEFINE FIELD IF NOT EXISTS email ON TABLE users TYPE string;"
            = overwriteSQL (generateIndexSQL "users" i))
    ∨ (∃ c ∈ ndCfg.constraints,
        "DEFINE FIELD IF NOT EXISTS email ON TABLE users TYPE string;"
            = generateConstraintSQL "users" c
          ∨ "DEFINE FIELD IF NOT EXISTS email ON TABLE users TYPE string;"
            = overwriteSQL (generateConstraintSQL "users" c))
    ∨ (∃ t ∈ ndCfg.triggers,
        "DEFINE FIELD IF NOT EXISTS email ON TABLE users TYPE string;"
            = generateTriggerSQL "users" t
          ∨ "DEFINE FIELD IF NOT EXISTS email ON TABLE users TYPE string;"
            = overwriteSQL (generateTriggerSQL "users" t))
    ∨ "DEFINE FIELD IF NOT EXISTS email ON TABLE users TYPE string;"
        = alterStatement "users" ndCfg ndInfo :=
  planDiff_nondestructive "users" ndCfg ndInfo
    "DEFINE FIELD IF NOT EXISTS email ON TABLE users TYPE string;" (by decide)

/-- Claim C6 counterexample: when both the structured (`INFO …
STRUCTURE`) and the plain introspection queries reject,
`SurrealORM.introspectTable` propagates the rejection instead of
returning an empty result — the error *is* surfaced to the caller,
refuting "no error is ever surfaced to the caller of
`introspectTable`". -/
theorem introspectTable_double_failure_raises :
    introspectTable (.error ()) (.error ()) = .error () := rfl

/-- Claim C6 (amended): `Table.getInfo` returns empty maps (and no
table attributes) when its query rejects, never raising; the structured
introspection result is used whenever it resolves and the raw query's
outcome is used only when the structured call fails — so
`introspectTable` succeeds whenever either call resolves, and an error
reaches its caller only when both the structured and the raw
introspection calls fail. -/
theorem introspection_failure_policy :
    (∀ e : Unit, getInfo (.error e) = { fields := [], indexes := [], events := [], table := none })
    ∧ (∀ (j : RawIntroInfo) (r : Except Unit RawIntroInfo),
        introspectTable (.ok j) r = .ok (processIntroInfo j))
    ∧ (∀ (e : Unit) (j : RawIntroInfo),
        introspectTable (.error e) (.ok j) = .ok (processIntroInfo j))
    ∧ (∀ e e' : Unit, introspectTable (.error e) (.error e') = .error e') :=
  ⟨fun _ => rfl, fun _ _ => rfl, fun _ _ => rfl, fun _ _ => rfl⟩

/-- The C7 field: `metrics` is an array of objects with one numeric
property `score`. -/
def metricsCfg : FieldConfig := (fld "array").setArrayOf (some (.obj [("score", fld "number")]))

def metricsStmt : String := "DEFINE FIELD IF NOT EXISTS metrics ON TABLE t TYPE array<object>;"

def scoreStmt : String := "DEFINE FIELD IF NOT EXISTS metrics.*.score ON TABLE t TYPE number;"

/-- Claim C7: compiling `metrics` emits the container statement and one
leaf statement at the wildcard path `metrics.*.score`; reconstructing
the resulting raw fields map — in either processing order — yields an
array-type `metrics` whose element-object descriptor has exactly one
property `score` of numeric type. -/
theorem array_object_roundtrip :
    generateFieldSQLParts "t" "metrics" metricsCfg = [metricsStmt, scoreStmt]
    ∧ introspectFieldsMap [("metrics", metricsStmt), ("metrics.*.score", scoreStmt)]
        = [("metrics", (fld "array").setArrayOf (some (.obj [("score", fld "number")])))]
    ∧ introspectFieldsMap [("metrics.*.score", scoreStmt), ("metrics", metricsStmt)]
        = [("metrics", (fld "array").setArrayOf (some (.obj [("score", fld "number")])))] :=
  ⟨rfl, rfl, rfl⟩

/-- Whether the collapse automaton starts inside or outside a
whitespace run only affects a leading space, which trimming removes. -/
theorem dropWhile_collapse_flag (l : List Char) :
    (collapseWsAux l true).dropWhile isJsWs = (collapseWsAux l false).dropWhile isJsWs := by
  cases l with
  | nil => rfl
  | cons c r =>
    by_cases hc : isJsWs c = true
    · simp [collapseWsAux, hc, List.dropWhile_cons, show isJsWs ' ' = true from by decide]
    · simp [collapseWsAux, hc, List.dropWhile_cons]

/-- Claim C8: the normalizer declares two statement texts equivalent
exactly when they are identical after collapsing whitespace runs to
single spaces, trimming, and lowercasing; the relation is reflexive,
insensitive to leading whitespace in general and to whitespace/case
variation on a concrete pair, and a single-letter difference is not
equivalent. -/
theorem normalizer_characterization :
    (∀ a b : String, normEquiv a b = true ↔
        asciiLower (jsTrim (collapseWs a)) = asciiLower (jsTrim (collapseWs b)))
    ∧ (∀ s : String, normEquiv s s = true)
    ∧ (∀ l : List Char, normEquiv ⟨' ' :: l⟩ ⟨l⟩ = true)
    ∧ normEquiv "DEFINE   FIELD\t\temail  ON  TABLE users;" "define field email on table users;"
        = true
    ∧ normEquiv "DEFINE FIELD a" "DEFINE FIELD b" = false := by
  refine ⟨?_, ?_, ?_, by decide, by decide⟩
  · intro a b
    unfold normEquiv normalized
    exact beq_iff_eq
  · intro s
    unfold normEquiv
    simp
  · intro l
    have h1 : collapseWsAux (' ' :: l) false = ' ' :: collapseWsAux l true := by
      simp [collapseWsAux, isJsWs]
    have hsp : isJsWs ' ' = true := by decide
    unfold normEquiv
    rw [beq_iff_eq]
    unfold normalized collapseWs jsTrim
    dsimp only
    rw [h1, List.dropWhile_cons, if_pos hsp, dropWhile_collapse_flag]

/-- Claim C9: whenever the DEFAULT-clause pattern matches with a
captured expression containing the function-call marker, the parsed
field keeps no literal default (while the ALWAYS flag is still
recorded); plain literal defaults are parsed into the corresponding
values, and `DEFAULT ALWAYS` sets the always-reapply flag. -/
theorem default_clause_parsing :
    (∀ (d : String) (alw : Bool) (cap : List Char),
        scanDefaultClause true d.data = some (alw, cap) →
        hasFnMarker (jsTrim ⟨cap⟩).data = true →
        (parseFieldFromDef d).default = none ∧ (parseFieldFromDef d).defaultAlways = alw)
    ∧ (parseFieldFromDef "DEFINE FIELD age ON TABLE t TYPE number DEFAULT 5;").default
        = some (.num 5)
    ∧ (parseFieldFromDef "DEFINE FIELD nick ON TABLE t TYPE string DEFAULT \"x\" READONLY;").default
        = some (.str "x")
    ∧ (parseFieldFromDef
        "DEFINE FIELD active ON TABLE t TYPE bool DEFAULT ALWAYS true;").defaultAlways = true
    ∧ (parseFieldFromDef "DEFINE FIELD active ON TABLE t TYPE bool DEFAULT ALWAYS true;").default
        = some (.bool true) := by
  refine ⟨?_, rfl, rfl, rfl, rfl⟩
  intro d alw cap hscan hmark
  unfold parseFieldFromDef
  dsimp only
  rw [hscan]
  dsimp only
  rw [hmark]
  exact ⟨rfl, rfl⟩

def exprDefaultStmt : String :=
  "DEFINE FIELD created ON TABLE t TYPE datetime DEFAULT time::now();"

/-- Claim C9 witness: a `DEFAULT time::now()` clause parses with no
literal default value and no ALWAYS flag. -/
theorem default_clause_parsing_witness :
    (parseFieldFromDef exprDefaultStmt).default = none
      ∧ (parseFieldFromDef exprDefaultStmt).defaultAlways = false :=
  default_clause_parsing.1 exprDefaultStmt false "time::now()".data rfl rfl

/-- Claim C10: `applyDiff` sends no query at all when the trimmed plan
text is empty, and exactly one query carrying the full plan otherwise —
both for a single table and for the whole-schema `applyDiff`. -/
theorem apply_diff_effect :
    (∀ plan : String, jsTrim plan = "" → applyDiffQueries plan = [])
    ∧ (∀ plan : String, jsTrim plan ≠ "" → applyDiffQueries plan = [plan])
    ∧ (∀ tables : List (String × TableConfig × TableInfo),
        jsTrim (ormPlanDiff tables) = "" → ormApplyDiffQueries tables = [])
    ∧ (∀ tables : List (String × TableConfig × TableInfo),
        jsTrim (ormPlanDiff tables) ≠ "" →
        ormApplyDiffQueries tables = [ormPlanDiff tables]) := by
  refine ⟨?_, ?_, ?_, ?_⟩ <;> intro x h <;>
    simp [applyDiffQueries, ormApplyDiffQueries, h]

/-- Claim C10 witness: an all-whitespace plan issues no query; a
non-blank plan issues exactly one query carrying it. -/
theorem apply_diff_effect_witness :
    applyDiffQueries " \n " = []
      ∧ applyDiffQueries "DEFINE FIELD f ON TABLE t TYPE string;"
          = ["DEFINE FIELD f ON TABLE t TYPE string;"] :=
  ⟨apply_diff_effect.1 " \n " rfl,
   apply_diff_effect.2.1 "DEFINE FIELD f ON TABLE t TYPE string;" (by decide)⟩

end SurrealOrm
